import Mathlib

/-!
Verification of the AES witness generator (`src/main.rs`, `src/witness.rs`).

The development shallowly embeds the program: bytes are `Nat` (kept below 256
by construction), byte buffers are `List Nat`, and the external cipher crates
(`aes`, `ctr`, `aes-gcm`, `aes-gcm-siv`) are embedded by faithful executable
implementations of the algorithms they provide (FIPS-197 AES, NIST SP 800-38D
GCM with the 32-bit big-endian counter used by `ctr::flavors::Ctr32BE`, and
RFC 8452 AES-GCM-SIV).  Code of the repository that is not present under
`src/` (`consts.rs`, `utils.rs`) is modelled from the spec; such definitions
carry a doc comment starting with `Modelled from the spec:`.
-/

namespace AesCircuits

/-! ## Byte-buffer helpers -/

/-- Byte-wise exclusive or of two buffers (truncates to the shorter one,
like Rust iterator zips). -/
def xorBytes (a b : List Nat) : List Nat :=
  List.zipWith (fun x y => x ^^^ y) a b

/-- Big-endian encoding of `n` into `k` bytes (as in `u32::to_be_bytes` /
`u64::to_be_bytes`; higher bits beyond `k` bytes are dropped, matching the
fixed-width machine integer). -/
def natToBytesBE : Nat → Nat → List Nat
  | 0, _ => []
  | k + 1, n => natToBytesBE k (n / 256) ++ [n % 256]

/-- Little-endian encoding of `n` into `k` bytes (as in `u32::to_le_bytes`). -/
def natToBytesLE : Nat → Nat → List Nat
  | 0, _ => []
  | k + 1, n => n % 256 :: natToBytesLE k (n / 256)

/-- Big-endian byte buffer to natural number. -/
def beBytesToNat (l : List Nat) : Nat :=
  l.foldl (fun acc b => acc * 256 + b % 256) 0

/-- Little-endian byte buffer to natural number. -/
def leBytesToNat (l : List Nat) : Nat :=
  l.foldr (fun b acc => b % 256 + acc * 256) 0

/-- 4-byte big-endian encoding (`u32`). -/
def be32 (n : Nat) : List Nat := natToBytesBE 4 n

/-- 8-byte big-endian encoding (`u64`). -/
def be64 (n : Nat) : List Nat := natToBytesBE 8 n

/-- 4-byte little-endian encoding (`u32`). -/
def le32 (n : Nat) : List Nat := natToBytesLE 4 n

/-- 8-byte little-endian encoding (`u64`). -/
def le64 (n : Nat) : List Nat := natToBytesLE 8 n

/-- Normalize a buffer to exactly 16 bytes.  This encodes the
`GenericArray<u8, U16>` block type of the cipher crates: every block handed
around by the stream-cipher cores has this fixed width by type.  On a
16-byte input this is the identity. -/
def fit16 (l : List Nat) : List Nat :=
  l.take 16 ++ List.replicate (16 - l.length) 0

/-- Split a buffer into 16-byte chunks, zero-padding the final partial chunk
(as the GHASH/POLYVAL padding rules require).  Fuel-indexed structural
recursion; the fuel is the buffer length. -/
def chunks16Aux : Nat → List Nat → List (List Nat)
  | 0, _ => []
  | fuel + 1, l =>
    if l.isEmpty then []
    else fit16 (l.take 16) :: chunks16Aux fuel (l.drop 16)

/-- Split a buffer into zero-padded 16-byte chunks. -/
def chunks16 (l : List Nat) : List (List Nat) :=
  chunks16Aux l.length l

/-! ## AES block cipher (FIPS-197), as implemented by the `aes` crate -/

/-- The AES S-box. -/
def sbox : List Nat := [
  0x63, 0x7c, 0x77, 0x7b, 0xf2, 0x6b, 0x6f, 0xc5, 0x30, 0x01, 0x67, 0x2b, 0xfe, 0xd7, 0xab, 0x76,
  0xca, 0x82, 0xc9, 0x7d, 0xfa, 0x59, 0x47, 0xf0, 0xad, 0xd4, 0xa2, 0xaf, 0x9c, 0xa4, 0x72, 0xc0,
  0xb7, 0xfd, 0x93, 0x26, 0x36, 0x3f, 0xf7, 0xcc, 0x34, 0xa5, 0xe5, 0xf1, 0x71, 0xd8, 0x31, 0x15,
  0x04, 0xc7, 0x23, 0xc3, 0x18, 0x96, 0x05, 0x9a, 0x07, 0x12, 0x80, 0xe2, 0xeb, 0x27, 0xb2, 0x75,
  0x09, 0x83, 0x2c, 0x1a, 0x1b, 0x6e, 0x5a, 0xa0, 0x52, 0x3b, 0xd6, 0xb3, 0x29, 0xe3, 0x2f, 0x84,
  0x53, 0xd1, 0x00, 0xed, 0x20, 0xfc, 0xb1, 0x5b, 0x6a, 0xcb, 0xbe, 0x39, 0x4a, 0x4c, 0x58, 0xcf,
  0xd0, 0xef, 0xaa, 0xfb, 0x43, 0x4d, 0x33, 0x85, 0x45, 0xf9, 0x02, 0x7f, 0x50, 0x3c, 0x9f, 0xa8,
  0x51, 0xa3, 0x40, 0x8f, 0x92, 0x9d, 0x38, 0xf5, 0xbc, 0xb6, 0xda, 0x21, 0x10, 0xff, 0xf3, 0xd2,
  0xcd, 0x0c, 0x13, 0xec, 0x5f, 0x97, 0x44, 0x17, 0xc4, 0xa7, 0x7e, 0x3d, 0x64, 0x5d, 0x19, 0x73,
  0x60, 0x81, 0x4f, 0xdc, 0x22, 0x2a, 0x90, 0x88, 0x46, 0xee, 0xb8, 0x14, 0xde, 0x5e, 0x0b, 0xdb,
  0xe0, 0x32, 0x3a, 0x0a, 0x49, 0x06, 0x24, 0x5c, 0xc2, 0xd3, 0xac, 0x62, 0x91, 0x95, 0xe4, 0x79,
  0xe7, 0xc8, 0x37, 0x6d, 0x8d, 0xd5, 0x4e, 0xa9, 0x6c, 0x56, 0xf4, 0xea, 0x65, 0x7a, 0xae, 0x08,
  0xba, 0x78, 0x25, 0x2e, 0x1c, 0xa6, 0xb4, 0xc6, 0xe8, 0xdd, 0x74, 0x1f, 0x4b, 0xbd, 0x8b, 0x8a,
  0x70, 0x3e, 0xb5, 0x66, 0x48, 0x03, 0xf6, 0x0e, 0x61, 0x35, 0x57, 0xb9, 0x86, 0xc1, 0x1d, 0x9e,
  0xe1, 0xf8, 0x98, 0x11, 0x69, 0xd9, 0x8e, 0x94, 0x9b, 0x1e, 0x87, 0xe9, 0xce, 0x55, 0x28, 0xdf,
  0x8c, 0xa1, 0x89, 0x0d, 0xbf, 0xe6, 0x42, 0x68, 0x41, 0x99, 0x2d, 0x0f, 0xb0, 0x54, 0xbb, 0x16]

/-- S-box substitution of one byte. -/
def subByte (b : Nat) : Nat := sbox.getD (b % 256) 0

/-- Multiplication by `x` in GF(2^8) (the `xtime` operation). -/
def xtime (b : Nat) : Nat :=
  if b % 256 < 128 then 2 * (b % 256) else (2 * (b % 256) - 256) ^^^ 0x1B

/-- Multiplication by 3 in GF(2^8). -/
def gfTriple (b : Nat) : Nat := xtime b ^^^ b % 256

/-- One word (four bytes) of the AES key schedule. -/
structure W4 where
  b0 : Nat
  b1 : Nat
  b2 : Nat
  b3 : Nat
deriving DecidableEq

/-- XOR of two key-schedule words. -/
def wordXor (x y : W4) : W4 :=
  ⟨x.b0 ^^^ y.b0, x.b1 ^^^ y.b1, x.b2 ^^^ y.b2, x.b3 ^^^ y.b3⟩

/-- Cyclic left rotation of a key-schedule word. -/
def rotWord (x : W4) : W4 := ⟨x.b1, x.b2, x.b3, x.b0⟩

/-- S-box substitution on each byte of a key-schedule word. -/
def subWord (x : W4) : W4 := ⟨subByte x.b0, subByte x.b1, subByte x.b2, subByte x.b3⟩

/-- Round constants; `rconVal i` is the first byte of `Rcon[i]`. -/
def rconVal (i : Nat) : Nat :=
  [0, 0x01, 0x02, 0x04, 0x08, 0x10, 0x20, 0x40, 0x80, 0x1B, 0x36].getD i 0

/-- The four bytes of a key-schedule word. -/
def w4bytes (x : W4) : List Nat := [x.b0, x.b1, x.b2, x.b3]

/-- The first `nk` words of the key schedule, straight from the key bytes. -/
def keyWords (key : List Nat) (nk : Nat) : List W4 :=
  (List.range nk).map fun i =>
    ⟨key.getD (4 * i) 0, key.getD (4 * i + 1) 0, key.getD (4 * i + 2) 0, key.getD (4 * i + 3) 0⟩

/-- Append the next word of the FIPS-197 key expansion to the schedule. -/
def expandStep (nk : Nat) (ws : List W4) : List W4 :=
  let i := ws.length
  let temp := ws.getD (i - 1) ⟨0, 0, 0, 0⟩
  let temp :=
    if i % nk = 0 then
      wordXor (subWord (rotWord temp)) ⟨rconVal (i / nk), 0, 0, 0⟩
    else if 6 < nk ∧ i % nk = 4 then
      subWord temp
    else temp
  ws ++ [wordXor (ws.getD (i - nk) ⟨0, 0, 0, 0⟩) temp]

/-- Iterate a function `k` times. -/
def iterateN {α : Type} (f : α → α) : Nat → α → α
  | 0, a => a
  | k + 1, a => iterateN f k (f a)

/-- FIPS-197 key expansion: `4 * (nr + 1)` words from an `nk`-word key. -/
def keyExpansion (key : List Nat) (nk nr : Nat) : List W4 :=
  iterateN (expandStep nk) (4 * (nr + 1) - nk) (keyWords key nk)

/-- Round key `r` (16 bytes) out of the expanded schedule. -/
def roundKey (ws : List W4) (r : Nat) : List Nat :=
  w4bytes (ws.getD (4 * r) ⟨0, 0, 0, 0⟩) ++ w4bytes (ws.getD (4 * r + 1) ⟨0, 0, 0, 0⟩) ++
  w4bytes (ws.getD (4 * r + 2) ⟨0, 0, 0, 0⟩) ++ w4bytes (ws.getD (4 * r + 3) ⟨0, 0, 0, 0⟩)

/-- SubBytes on the 16-byte state. -/
def subBytesState (s : List Nat) : List Nat := s.map subByte

/-- ShiftRows on the 16-byte state (column-major layout: byte `i` sits at row
`i % 4`, column `i / 4`). -/
def shiftRowsState (s : List Nat) : List Nat :=
  [0, 5, 10, 15, 4, 9, 14, 3, 8, 13, 2, 7, 12, 1, 6, 11].map fun i => s.getD i 0

/-- MixColumns on one 4-byte column. -/
def mixColumn : List Nat → List Nat
  | [a, b, c, d] =>
    [xtime a ^^^ gfTriple b ^^^ c % 256 ^^^ d % 256,
     a % 256 ^^^ xtime b ^^^ gfTriple c ^^^ d % 256,
     a % 256 ^^^ b % 256 ^^^ xtime c ^^^ gfTriple d,
     gfTriple a ^^^ b % 256 ^^^ c % 256 ^^^ xtime d]
  | l => l

/-- MixColumns on the 16-byte state. -/
def mixColumnsState (s : List Nat) : List Nat :=
  mixColumn (s.take 4) ++ mixColumn ((s.drop 4).take 4) ++
  mixColumn ((s.drop 8).take 4) ++ mixColumn ((s.drop 12).take 4)

/-- AddRoundKey. -/
def addRoundKey (s rk : List Nat) : List Nat := xorBytes s rk

/-- One full middle round. -/
def aesRound (rk s : List Nat) : List Nat :=
  addRoundKey (mixColumnsState (shiftRowsState (subBytesState s))) rk

/-- AES block encryption given an expanded key schedule and round count. -/
def aesEncryptBlockWith (ws : List W4) (nr : Nat) (block : List Nat) : List Nat :=
  let st0 := addRoundKey block (roundKey ws 0)
  let stMid := (List.range (nr - 1)).foldl (fun st r => aesRound (roundKey ws (r + 1)) st) st0
  addRoundKey (shiftRowsState (subBytesState stMid)) (roundKey ws nr)

/-- AES-128 single-block encryption (the `aes::Aes128` cipher). -/
def aes128EncryptBlock (key block : List Nat) : List Nat :=
  aesEncryptBlockWith (keyExpansion key 4 10) 10 block

/-- AES-256 single-block encryption (the `aes::Aes256` cipher). -/
def aes256EncryptBlock (key block : List Nat) : List Nat :=
  aesEncryptBlockWith (keyExpansion key 8 14) 14 block

/-! ## The 32-bit big-endian counter mode (`ctr::flavors::Ctr32BE`)

The stream-cipher state is passed explicitly: a cipher is the pair of its
block-encryption function and its 16-byte initial counter block, and the
mutable byte position of `StreamCipherCoreWrapper` is the index of the next
unused keystream block (all uses in the program are block-aligned). -/

/-- Counter block number `i` of a `Ctr32BE` cipher initialized from the
16-byte `iv`: the first 12 bytes are fixed, the last 4 bytes are a big-endian
32-bit counter that starts at the IV's value and wraps modulo `2^32`. -/
def ctrBlockIv (iv : List Nat) (i : Nat) : List Nat :=
  iv.take 12 ++ be32 ((beBytesToNat (iv.drop 12) + i) % 2 ^ 32)

/-- Keystream block number `i` (a 16-byte block by the cipher's block type). -/
def keystreamBlock (enc : List Nat → List Nat) (iv : List Nat) (i : Nat) : List Nat :=
  fit16 (enc (ctrBlockIv iv i))

/-- Concatenation of `count` consecutive blocks `f i, f (i+1), ...`. -/
def ksBlocks (f : Nat → List Nat) : Nat → Nat → List Nat
  | 0, _ => []
  | count + 1, i => f i ++ ksBlocks f count (i + 1)

/-- The next `n` keystream bytes of a `Ctr32BE` cipher whose next unused
block is number `pos`. -/
def ctrKeystream (enc : List Nat → List Nat) (iv : List Nat) (pos n : Nat) : List Nat :=
  (ksBlocks (keystreamBlock enc iv) ((n + 15) / 16) pos).take n

/-- Modelled from the spec: `utils::apply_keystream` (file `utils.rs` is not
under `src/`) and the `StreamCipher::apply_keystream` trait method both XOR
the cipher's keystream into the buffer in 16-byte blocks, handling a final
partial block, and advance the cipher state by the number of blocks
consumed.  Returns the new block position together with the XORed buffer. -/
def apply_keystream (enc : List Nat → List Nat) (iv : List Nat) (pos : Nat)
    (buffer : List Nat) : Nat × List Nat :=
  (pos + (buffer.length + 15) / 16, xorBytes buffer (ctrKeystream enc iv pos buffer.length))

/-! ## GHASH and AES-GCM (NIST SP 800-38D, as implemented by `aes-gcm`) -/

/-- The GHASH reduction constant `R = 0xE1 << 120`. -/
def ghashR : Nat := 0xE1 <<< 120

/-- One pass of the GHASH multiplication: fuel `f` processes bit `f` of `x`
(bit 127 first, i.e. the most significant bit of the big-endian block). -/
def gfMulAux : Nat → Nat → Nat → Nat → Nat
  | 0, _, _, z => z
  | f + 1, x, v, z =>
    let z2 := if x.testBit f then z ^^^ v else z
    let v2 := if v.testBit 0 then (v >>> 1) ^^^ ghashR else v >>> 1
    gfMulAux f x v2 z2

/-- GHASH multiplication in GF(2^128) of two blocks given as big-endian
naturals. -/
def gfMul (x y : Nat) : Nat := gfMulAux 128 x y 0

/-- GHASH of a sequence of 16-byte blocks under hash key `h`. -/
def ghash (h : Nat) (blocks : List (List Nat)) : Nat :=
  blocks.foldl (fun acc b => gfMul (acc ^^^ beBytesToNat b) h) 0

/-- AES-GCM encryption generic in the block cipher: `J0 = nonce ++ [0,0,0,1]`
(96-bit nonce), the first keystream block `E(K, J0)` is the tag mask, the
plaintext is XORed with the keystream from block `J0 + 1` on, and the 16-byte
tag `GHASH(aad, ct) XOR tagMask` is appended to the ciphertext. -/
def gcm_encrypt (enc : List Nat → List Nat) (nonce aad msg : List Nat) : List Nat :=
  let h := beBytesToNat (fit16 (enc (List.replicate 16 0)))
  let j0 := nonce ++ [0, 0, 0, 1]
  let tagMask := keystreamBlock enc j0 0
  let ct := (apply_keystream enc j0 1 msg).snd
  let lenBlock := be64 (8 * aad.length) ++ be64 (8 * ct.length)
  let s := ghash h (chunks16 aad ++ chunks16 ct ++ [lenBlock])
  let tag := xorBytes tagMask (natToBytesBE 16 s)
  ct ++ tag

/-- AES-128-GCM (`aes_gcm::Aes128Gcm`). -/
def aes128gcm_encrypt (key nonce aad msg : List Nat) : List Nat :=
  gcm_encrypt (aes128EncryptBlock key) nonce aad msg

/-- AES-256-GCM (`aes_gcm::Aes256Gcm`). -/
def aes256gcm_encrypt (key nonce aad msg : List Nat) : List Nat :=
  gcm_encrypt (aes256EncryptBlock key) nonce aad msg

/-! ## POLYVAL and AES-GCM-SIV (RFC 8452, as implemented by `aes-gcm-siv`)

POLYVAL field elements are 16-byte blocks read little-endian (first byte is
least significant); bit `j` of the natural number is the coefficient of
`x^j`.  The field polynomial is `g = x^128 + x^127 + x^126 + x^121 + 1`. -/

/-- The POLYVAL field polynomial as a bit mask. -/
def pvPoly : Nat := 2 ^ 128 + 2 ^ 127 + 2 ^ 126 + 2 ^ 121 + 1

/-- `x^-128` in the POLYVAL field: `x^127 + x^124 + x^121 + x^114 + 1`. -/
def pvXInv : Nat := 2 ^ 127 + 2 ^ 124 + 2 ^ 121 + 2 ^ 114 + 1

/-- Carry-less multiplication: fuel `f` processes bit `f` of `a`. -/
def clMulAux : Nat → Nat → Nat → Nat → Nat
  | 0, _, _, acc => acc
  | f + 1, a, b, acc => clMulAux f a b (if a.testBit f then acc ^^^ (b <<< f) else acc)

/-- Carry-less product of two 128-bit polynomials (up to 255 bits wide). -/
def clMul (a b : Nat) : Nat := clMulAux 128 a b 0

/-- Reduce a polynomial of degree below `128 + fuel` modulo `pvPoly`,
clearing bits from the top down. -/
def pvReduce : Nat → Nat → Nat
  | 0, acc => acc
  | k + 1, acc => pvReduce k (if acc.testBit (128 + k) then acc ^^^ (pvPoly <<< k) else acc)

/-- Multiplication in the POLYVAL field (without the `x^-128` factor). -/
def pvMulMod (a b : Nat) : Nat := pvReduce 127 (clMul a b)

/-- The RFC 8452 `dot` operation: `a * b * x^-128` in the POLYVAL field. -/
def pvDot (a b : Nat) : Nat := pvMulMod (pvMulMod a b) pvXInv

/-- POLYVAL of a sequence of 16-byte blocks under hash key `h`. -/
def polyval (h : Nat) (blocks : List (List Nat)) : Nat :=
  blocks.foldl (fun s b => pvDot (s ^^^ leBytesToNat b) h) 0

/-- RFC 8452 key derivation block `i`: the first 8 bytes of
`AES(key_generating_key, LE32(i) ++ nonce)`. -/
def sivDeriveBlock (kgk nonce : List Nat) (i : Nat) : List Nat :=
  (fit16 (aes256EncryptBlock kgk (le32 i ++ nonce))).take 8

/-- RFC 8452 message-authentication key (16 bytes) for a 256-bit key. -/
def sivAuthKey (kgk nonce : List Nat) : List Nat :=
  sivDeriveBlock kgk nonce 0 ++ sivDeriveBlock kgk nonce 1

/-- RFC 8452 message-encryption key (32 bytes) for a 256-bit key. -/
def sivEncKey (kgk nonce : List Nat) : List Nat :=
  sivDeriveBlock kgk nonce 2 ++ sivDeriveBlock kgk nonce 3 ++
  sivDeriveBlock kgk nonce 4 ++ sivDeriveBlock kgk nonce 5

/-- Counter block number `i` of the AES-GCM-SIV counter mode: the initial
counter block carries a 32-bit little-endian wrapping counter in its first
four bytes. -/
def sivCtrBlock (ctrBlk : List Nat) (i : Nat) : List Nat :=
  le32 ((leBytesToNat (ctrBlk.take 4) + i) % 2 ^ 32) ++ ctrBlk.drop 4

/-- The first `n` keystream bytes of the AES-GCM-SIV counter mode. -/
def sivKeystream (enc : List Nat → List Nat) (ctrBlk : List Nat) (n : Nat) : List Nat :=
  (ksBlocks (fun i => fit16 (enc (sivCtrBlock ctrBlk i))) ((n + 15) / 16) 0).take n

/-- AES-256-GCM-SIV encryption (`aes_gcm_siv::Aes256GcmSiv`, RFC 8452):
derive the per-nonce keys, compute `S_s` by POLYVAL over padded AAD,
padded plaintext and the little-endian length block, XOR the nonce into its
first 12 bytes and clear the top bit to obtain the tag input, encrypt it to
get the tag, then encrypt the plaintext in counter mode starting from the
tag with its top bit set, and append the tag. -/
def aes256gcmsiv_encrypt (key nonce aad msg : List Nat) : List Nat :=
  let authKey := sivAuthKey key nonce
  let encKey := sivEncKey key nonce
  let lenBlock := le64 (8 * aad.length) ++ le64 (8 * msg.length)
  let ss := natToBytesLE 16 (polyval (leBytesToNat authKey)
    (chunks16 aad ++ chunks16 msg ++ [lenBlock]))
  let ssN := xorBytes (ss.take 12) nonce ++ ss.drop 12
  let tagInput := ssN.take 15 ++ [ssN.getD 15 0 &&& 0x7F]
  let tag := fit16 (aes256EncryptBlock encKey tagInput)
  let ctrBlk := tag.take 15 ++ [tag.getD 15 0 ||| 0x80]
  let ct := xorBytes msg (sivKeystream (aes256EncryptBlock encKey) ctrBlk msg.length)
  ct ++ tag

/-! ## The repository's data model (`src/witness.rs`, `src/main.rs`) -/

/-- Modelled from the spec: the error taxonomy of section 7 (the error types
live in code that is not under `src/`). -/
inductive RtError where
  | InvalidKeyLength
  | InvalidIvLength
  | LengthOverflow
  | ModeNotImplemented
  | UnsupportedModeForSchema
deriving DecidableEq

/-- The result of running a fallible Rust computation: `ok` is `Ok(..)`,
`err` is a returned `Err(..)` value, and `panicked` is a process abort via
`panic!`-like macros (`unwrap`, `expect`, `unimplemented!`, out-of-bounds
slicing). -/
inductive Outcome (α : Type) where
  | ok (val : α)
  | err (e : RtError)
  | panicked (msg : String)
deriving DecidableEq

/-- Is the outcome an `Ok` value? -/
def Outcome.isOk {α : Type} : Outcome α → Bool
  | .ok _ => true
  | _ => false

/-- `struct Witness` of `witness.rs`: the record `{key, iv, ct, pt}`. -/
structure Witness where
  key : List Nat
  iv : List Nat
  ct : List Nat
  pt : List Nat
deriving DecidableEq

/-- `enum CipherMode` of `witness.rs`. -/
inductive CipherMode where
  | Vanilla
  | Ctr256
  | GcmSiv
  | GCM256
  | Ctr128
  | GCM128
deriving DecidableEq

/-- Modelled from the spec: the fixed test constants of `consts.rs`, which is
not under `src/`.  Following section 9 of the spec they are modelled as an
explicit immutable configuration record; the byte lengths are the ones the
call sites in `witness.rs` require (`GenericArray::from` on fixed-size
arrays: 16-byte AES-128 key, 32-byte AES-256 key, 16-byte CTR IVs, 12-byte
GCM nonces, 16-byte message blocks). -/
structure Consts where
  MESSAGE : List Nat
  KEY_ASCII : List Nat
  IV_ASCII : List Nat
  KEY_BYTES_156 : List Nat
  KEY_BYTES_256 : List Nat
  IV_BYTES : List Nat
  IV_BYTES_256 : List Nat
  IV_BYTES_SHORT : List Nat
  IV_BYTES_SHORT_256 : List Nat
  MESSAGE_BYTES : List Nat
  ZERO_MESSAGE_BYTES_256 : List Nat
  SIV_AAD : List Nat
deriving DecidableEq

/-- Modelled from the spec: a concrete instance of the missing `consts.rs`
constants, satisfying the length constraints of the call sites and the
spec's mandate that the CTR IVs extend the GCM nonces by the canonical
counter suffix `[0,0,0,1]` (the extension the in-source GCM duplication at
`witness.rs:161-163` performs explicitly). -/
def defaultConsts : Consts where
  MESSAGE := [0x74, 0x65]
  KEY_ASCII := List.replicate 16 0x31
  IV_ASCII := List.replicate 12 0x31
  KEY_BYTES_156 := List.replicate 16 0x31
  KEY_BYTES_256 := List.replicate 32 0x33
  IV_BYTES := List.replicate 12 0x31 ++ [0, 0, 0, 1]
  IV_BYTES_256 := List.replicate 12 0x32 ++ [0, 0, 0, 1]
  IV_BYTES_SHORT := List.replicate 12 0x31
  IV_BYTES_SHORT_256 := List.replicate 12 0x32
  MESSAGE_BYTES := List.replicate 16 0x74
  ZERO_MESSAGE_BYTES_256 := List.replicate 16 0
  SIV_AAD := [1, 2, 3, 4]

/-- Modelled from the spec: `utils::make_nonce` (file `utils.rs` is not under
`src/`): the nonce is the 12-byte fixed IV with its last 8 bytes XORed
against the big-endian 8-byte encoding of the 64-bit sequence number. -/
def make_nonce (fixed_iv : List Nat) (seq : Nat) : List Nat :=
  xorBytes fixed_iv (List.replicate 4 0 ++ be64 seq)

/-- Modelled from the spec: `utils::make_tls13_aad` (file `utils.rs` is not
under `src/`): the TLS 1.3 additional data is the 5-byte record header --
1 content-type byte (`0x17`, application data), 2 protocol-version bytes
(`0x03 0x03`) and the 2-byte big-endian record length -- matching
`pub type AAD = [u8; 5]` in `main.rs:30`; it fails with `LengthOverflow`
when the length exceeds the 2-byte range. -/
def make_tls13_aad (len : Nat) : Except RtError (List Nat) :=
  if 65535 < len then .error .LengthOverflow
  else .ok [0x17, 0x03, 0x03, len / 256 % 256, len % 256]

/-- `encrypt_tls` of `witness.rs:66-90`: computes the TLS 1.3 AAD for
`message.len() + 1 + 16` bytes and the XOR nonce, but then (as the source
stands) passes an *empty* AAD and the *raw* `iv` to `Aes128Gcm::encrypt` --
both computed values are discarded.  Failure points in source order: the
modelled `make_tls13_aad` overflow aborts; `iv[..12]` panics when `iv` is
shorter than 12 bytes; `Aes128Gcm::new_from_slice(key).unwrap()` panics
unless the key is 16 bytes; `GenericArray::from_slice(iv)` panics unless
`iv` is exactly 12 bytes. -/
def encrypt_tls (message key iv : List Nat) (seq : Nat) : Outcome (List Nat) :=
  let total_len := message.length + 1 + 16
  match make_tls13_aad total_len with
  | .error _ => .panicked "make_tls13_aad length overflow"
  | .ok _aad =>
    if iv.length < 12 then .panicked "range end index 12 out of range"
    else
      let fixed_iv := iv.take 12
      let _nonce := make_nonce fixed_iv seq
      if key.length ≠ 16 then .panicked "unwrap on Err: invalid key length"
      else if iv.length ≠ 12 then .panicked "from_slice: invalid nonce length"
      else .ok (aes128gcm_encrypt key iv [] message)

/-- The `CipherMode::Vanilla` arm: one raw AES-128 block over
`MESSAGE_BYTES`. -/
def vanillaCt (c : Consts) : List Nat :=
  aes128EncryptBlock c.KEY_BYTES_156 c.MESSAGE_BYTES

/-- The `CipherMode::Ctr128` arm: a `Ctr32BE<Aes128>` cipher over
`(KEY_BYTES_156, IV_BYTES)` first consumes one keystream block into an
all-zero tag-mask buffer, then XORs the keystream into `MESSAGE_BYTES`. -/
def ctr128Ct (c : Consts) : List Nat :=
  let step1 := apply_keystream (aes128EncryptBlock c.KEY_BYTES_156) c.IV_BYTES 0
    (List.replicate 16 0)
  let _tag_mask := step1.snd
  let step2 := apply_keystream (aes128EncryptBlock c.KEY_BYTES_156) c.IV_BYTES step1.fst
    c.MESSAGE_BYTES
  step2.snd

/-- The `CipherMode::Ctr256` arm: a `Ctr32BE<Aes256>` cipher over
`(KEY_BYTES_256, IV_BYTES_256)` first consumes one keystream block into an
all-zero tag-mask buffer, then XORs the keystream into
`ZERO_MESSAGE_BYTES_256`. -/
def ctr256Ct (c : Consts) : List Nat :=
  let step1 := apply_keystream (aes256EncryptBlock c.KEY_BYTES_256) c.IV_BYTES_256 0
    (List.replicate 16 0)
  let _tag_mask := step1.snd
  let step2 := apply_keystream (aes256EncryptBlock c.KEY_BYTES_256) c.IV_BYTES_256 step1.fst
    c.ZERO_MESSAGE_BYTES_256
  step2.snd

/-- The `CipherMode::GcmSiv` arm. -/
def gcmSivCt (c : Consts) : List Nat :=
  aes256gcmsiv_encrypt c.KEY_BYTES_256 c.IV_BYTES_SHORT_256 c.SIV_AAD c.ZERO_MESSAGE_BYTES_256

/-- The `CipherMode::GCM256` arm. -/
def gcm256Ct (c : Consts) : List Nat :=
  aes256gcm_encrypt c.KEY_BYTES_256 c.IV_BYTES_SHORT_256 c.SIV_AAD c.ZERO_MESSAGE_BYTES_256

/-- The ciphertext each arm of the `match cipher_mode` in
`aes_witnesses` produces; `none` is the `GCM128` arm, whose body is
`unimplemented!()`. -/
def modeCt : CipherMode → Consts → Option (List Nat)
  | .Vanilla, c => some (vanillaCt c)
  | .Ctr256, c => some (ctr256Ct c)
  | .GcmSiv, c => some (gcmSivCt c)
  | .GCM256, c => some (gcm256Ct c)
  | .Ctr128, c => some (ctr128Ct c)
  | .GCM128, _ => none

/-- The "manual AESGCM" duplication at `witness.rs:161-182`: build
`ghash_iv` as `IV_BYTES_SHORT` followed by `[0,0,0,1]`, write one keystream
block into a tag mask, then apply the keystream to the ASCII `MESSAGE`
bytes.  The values are only printed; the pair is `(tag_mask, buffer)`. -/
def manualGcmDup (c : Consts) : List Nat × List Nat :=
  let ghash_iv := c.IV_BYTES_SHORT ++ [0, 0, 0, 1]
  let step1 := apply_keystream (aes128EncryptBlock c.KEY_BYTES_156) ghash_iv 0
    (List.replicate 16 0)
  let step2 := apply_keystream (aes128EncryptBlock c.KEY_BYTES_156) ghash_iv step1.fst c.MESSAGE
  (step1.snd, step2.snd)

/-- `aes_witnesses` of `witness.rs:92-187`: first runs `encrypt_tls` on the
ASCII constants and `.unwrap()`s it (a failure there panics), then computes
the selected mode's ciphertext (`unimplemented!()` for `GCM128` panics),
runs the manual GCM duplication (output discarded), and finally packages
`Witness::new(&KEY_BYTES_156, &IV_BYTES_SHORT_256, &ct,
&ZERO_MESSAGE_BYTES_256)` -- the same fixed key, IV and plaintext constants
for every mode. -/
def aes_witnesses (cipher_mode : CipherMode) (c : Consts) : Outcome Witness :=
  match encrypt_tls c.MESSAGE c.KEY_ASCII c.IV_ASCII 1 with
  | .ok _ct =>
    match modeCt cipher_mode c with
    | none => .panicked "not implemented"
    | some ct =>
      let _dup := manualGcmDup c
      .ok { key := c.KEY_BYTES_156, iv := c.IV_BYTES_SHORT_256, ct := ct,
            pt := c.ZERO_MESSAGE_BYTES_256 }
  | .err _e => .panicked "unwrap on Err"
  | .panicked m => .panicked m

/-! ## The `test_aes_gcm_blocks` scenario (`main.rs:78-102`) -/

/-- The test key: 16 bytes of `0x31`. -/
def testKey31 : List Nat := List.replicate 16 0x31

/-- The test IV: 12 bytes of `0x31`. -/
def testIv31 : List Nat := List.replicate 12 0x31

/-- The test message `"testhello0000000testhello0000000"` as bytes. -/
def testMessage : List Nat :=
  "testhello0000000testhello0000000".toList.map fun ch => ch.toNat

/-- The ciphertext `test_aes_gcm_blocks` computes: AES-128-GCM of the test
message under the test key/IV with empty AAD. -/
def testGcmBlocksCt : List Nat := aes128gcm_encrypt testKey31 testIv31 [] testMessage

/-! ## Projections used to state concrete facts about outcomes -/

/-- The `key` field of an `ok` witness (empty for non-`ok` outcomes). -/
def outKey : Outcome Witness → List Nat
  | .ok w => w.key
  | _ => []

/-- The `pt` field of an `ok` witness (empty for non-`ok` outcomes). -/
def outPt : Outcome Witness → List Nat
  | .ok w => w.pt
  | _ => []

/-- The witness value of an `ok` outcome (all-empty for non-`ok` outcomes). -/
def outWit : Outcome Witness → Witness
  | .ok w => w
  | _ => ⟨[], [], [], []⟩

/-- Is the mode an AEAD mode (tag appended to the ciphertext)? -/
def isAead : CipherMode → Bool
  | .GcmSiv => true
  | .GCM256 => true
  | .GCM128 => true
  | _ => false

/-- The length of a successfully built AAD (zero on error). -/
def aadLen : Except RtError (List Nat) → Nat
  | .ok l => l.length
  | .error _ => 0

/-! ## Length and structure lemmas -/

theorem fit16_length (l : List Nat) : (fit16 l).length = 16 := by
  simp [fit16]
  omega

theorem natToBytesBE_length (k n : Nat) : (natToBytesBE k n).length = k := by
  induction k generalizing n with
  | zero => rfl
  | succ k ih => simp [natToBytesBE, ih]

theorem natToBytesLE_length (k n : Nat) : (natToBytesLE k n).length = k := by
  induction k generalizing n with
  | zero => rfl
  | succ k ih => simp [natToBytesLE, ih]

theorem xorBytes_length (a b : List Nat) : (xorBytes a b).length = min a.length b.length := by
  simp [xorBytes]

theorem ksBlocks_length (f : Nat → List Nat) (hf : ∀ i, (f i).length = 16)
    (count i : Nat) : (ksBlocks f count i).length = 16 * count := by
  induction count generalizing i with
  | zero => rfl
  | succ k ih => simp [ksBlocks, hf, ih]; ring

theorem keystreamBlock_length (enc : List Nat → List Nat) (iv : List Nat) (i : Nat) :
    (keystreamBlock enc iv i).length = 16 := fit16_length _

theorem ctrKeystream_length (enc : List Nat → List Nat) (iv : List Nat) (pos n : Nat) :
    (ctrKeystream enc iv pos n).length = n := by
  have h := ksBlocks_length (keystreamBlock enc iv) (fun i => fit16_length _) ((n + 15) / 16) pos
  simp [ctrKeystream, h]
  omega

theorem apply_keystream_snd_length (enc : List Nat → List Nat) (iv : List Nat)
    (pos : Nat) (buffer : List Nat) :
    ((apply_keystream enc iv pos buffer).snd).length = buffer.length := by
  simp [apply_keystream, xorBytes_length, ctrKeystream_length]

theorem sivKeystream_length (enc : List Nat → List Nat) (ctrBlk : List Nat) (n : Nat) :
    (sivKeystream enc ctrBlk n).length = n := by
  have h := ksBlocks_length (fun i => fit16 (enc (sivCtrBlock ctrBlk i)))
    (fun i => fit16_length _) ((n + 15) / 16) 0
  simp [sivKeystream, h]
  omega

/-- The ciphertext part of GCM is exactly the counter-mode encryption of the
message starting at keystream block 1 of `J0 = nonce ++ [0,0,0,1]`; block 0
is the tag mask.  Taking the message length hence strips the appended tag. -/
theorem gcm_encrypt_take (enc : List Nat → List Nat) (nonce aad msg : List Nat) :
    (gcm_encrypt enc nonce aad msg).take msg.length =
      (apply_keystream enc (nonce ++ [0, 0, 0, 1]) 1 msg).snd := by
  have hlen := apply_keystream_snd_length enc (nonce ++ [0, 0, 0, 1]) 1 msg
  simp only [gcm_encrypt]
  rw [← hlen, List.take_left]

theorem gcm_encrypt_length (enc : List Nat → List Nat) (nonce aad msg : List Nat) :
    (gcm_encrypt enc nonce aad msg).length = msg.length + 16 := by
  simp only [gcm_encrypt]
  rw [List.length_append, apply_keystream_snd_length, xorBytes_length,
    keystreamBlock_length, natToBytesBE_length]
  rfl

theorem aes256gcmsiv_encrypt_length (key nonce aad msg : List Nat) :
    (aes256gcmsiv_encrypt key nonce aad msg).length = msg.length + 16 := by
  simp only [aes256gcmsiv_encrypt]
  rw [List.length_append, xorBytes_length, sivKeystream_length, fit16_length]
  simp

theorem shiftRowsState_length (s : List Nat) : (shiftRowsState s).length = 16 := by
  simp [shiftRowsState]

theorem roundKey_length (ws : List W4) (r : Nat) : (roundKey ws r).length = 16 := by
  simp [roundKey, w4bytes]

theorem aesEncryptBlockWith_length (ws : List W4) (nr : Nat) (block : List Nat) :
    (aesEncryptBlockWith ws nr block).length = 16 := by
  simp only [aesEncryptBlockWith, addRoundKey]
  rw [xorBytes_length, shiftRowsState_length, roundKey_length]
  rfl

theorem aes128EncryptBlock_length (key block : List Nat) :
    (aes128EncryptBlock key block).length = 16 :=
  aesEncryptBlockWith_length _ _ _

/-- XOR with a zero mask is truncation to the mask length. -/
theorem xorBytes_replicate_zero (a : List Nat) (n : Nat) :
    xorBytes a (List.replicate n 0) = a.take n := by
  induction a generalizing n with
  | nil => simp [xorBytes]
  | cons x xs ih =>
    cases n with
    | zero => simp [xorBytes]
    | succ k =>
      simp only [List.replicate, xorBytes, List.zipWith, List.take]
      rw [← xorBytes, ih]
      simp

/-- XORing the same mask twice recovers the original buffer (up to the mask
length). -/
theorem xorBytes_cancel (a b : List Nat) : xorBytes (xorBytes a b) b = a.take b.length := by
  induction a generalizing b with
  | nil => simp [xorBytes]
  | cons x xs ih =>
    cases b with
    | nil => simp [xorBytes]
    | cons y ys =>
      simp only [xorBytes, List.zipWith, List.take]
      rw [← xorBytes, ← xorBytes, ih]
      simp [Nat.xor_cancel_right]

/-- Every `Ok` result of the dispatcher carries the fixed key/IV/plaintext
constants and the selected arm's ciphertext. -/
theorem aes_witnesses_ok_shape (c : Consts) (m : CipherMode) (w : Witness)
    (h : aes_witnesses m c = .ok w) :
    ∃ ct, modeCt m c = some ct ∧
      w = ⟨c.KEY_BYTES_156, c.IV_BYTES_SHORT_256, ct, c.ZERO_MESSAGE_BYTES_256⟩ := by
  unfold aes_witnesses at h
  cases hE : encrypt_tls c.MESSAGE c.KEY_ASCII c.IV_ASCII 1 with
  | ok v =>
    rw [hE] at h
    cases hM : modeCt m c with
    | none => rw [hM] at h; exact absurd h (by simp)
    | some ct =>
      rw [hM] at h
      refine ⟨ct, rfl, ?_⟩
      cases h
      rfl
  | err e => rw [hE] at h; exact absurd h (by simp)
  | panicked s => rw [hE] at h; exact absurd h (by simp)

/-! ## Claims -/

/-- Claim C1: for both CTR modes (`Ctr128` and `Ctr256`), exactly one
keystream block is consumed and discarded into a tag-mask buffer before any
plaintext byte is processed (the stream position after the tag-mask step is
block 1), and the resulting CTR ciphertext equals the non-tag (leading)
portion of the corresponding GCM mode's ciphertext for the same key, IV and
plaintext; the hypotheses pin the CTR IV constants to the canonical
`nonce ++ [0,0,0,1]` extension of the GCM nonce constants, which the source
performs explicitly at `witness.rs:161-163`. -/
theorem ctr_discards_one_block_and_matches_gcm (c : Consts)
    (h128 : c.IV_BYTES = c.IV_BYTES_SHORT ++ [0, 0, 0, 1])
    (h256 : c.IV_BYTES_256 = c.IV_BYTES_SHORT_256 ++ [0, 0, 0, 1]) :
    (apply_keystream (aes128EncryptBlock c.KEY_BYTES_156) c.IV_BYTES 0
      (List.replicate 16 0)).fst = 1 ∧
    (apply_keystream (aes256EncryptBlock c.KEY_BYTES_256) c.IV_BYTES_256 0
      (List.replicate 16 0)).fst = 1 ∧
    ctr128Ct c = (aes128gcm_encrypt c.KEY_BYTES_156 c.IV_BYTES_SHORT []
      c.MESSAGE_BYTES).take c.MESSAGE_BYTES.length ∧
    ctr256Ct c = (gcm256Ct c).take c.ZERO_MESSAGE_BYTES_256.length := by
  refine ⟨rfl, rfl, ?_, ?_⟩
  · have e1 : ctr128Ct c = (apply_keystream (aes128EncryptBlock c.KEY_BYTES_156)
      c.IV_BYTES 1 c.MESSAGE_BYTES).snd := rfl
    rw [e1, h128]
    exact (gcm_encrypt_take (aes128EncryptBlock c.KEY_BYTES_156) c.IV_BYTES_SHORT []
      c.MESSAGE_BYTES).symm
  · have e1 : ctr256Ct c = (apply_keystream (aes256EncryptBlock c.KEY_BYTES_256)
      c.IV_BYTES_256 1 c.ZERO_MESSAGE_BYTES_256).snd := rfl
    rw [e1, h256]
    exact (gcm_encrypt_take (aes256EncryptBlock c.KEY_BYTES_256) c.IV_BYTES_SHORT_256
      c.SIV_AAD c.ZERO_MESSAGE_BYTES_256).symm

/-- Witness for C1 at the concrete modelled constants. -/
theorem ctr_discards_one_block_and_matches_gcm_check :
    ctr128Ct defaultConsts = (aes128gcm_encrypt defaultConsts.KEY_BYTES_156
      defaultConsts.IV_BYTES_SHORT [] defaultConsts.MESSAGE_BYTES).take
      defaultConsts.MESSAGE_BYTES.length :=
  (ctr_discards_one_block_and_matches_gcm defaultConsts rfl rfl).2.2.1

/-- Claim C2, counterexample: invoking the dispatcher with `GCM128` panics
(aborts via `unimplemented!()`); it is not surfaced to the caller as a
returned error value. -/
theorem gcm128_panics_not_an_error_value :
    aes_witnesses .GCM128 defaultConsts = .panicked "not implemented" ∧
    aes_witnesses .GCM128 defaultConsts ≠ .err .ModeNotImplemented := by
  have h : aes_witnesses .GCM128 defaultConsts = .panicked "not implemented" := rfl
  exact ⟨h, by rw [h]; decide⟩

/-- Claim C2, amended: invoking the Mode Dispatcher with the `GCM128` mode
variant aborts the run by panicking with "not implemented"
(`unimplemented!()`), never returning a `Witness`, empty output or an error
value (provided the preceding unconditional `encrypt_tls` call did not
itself fail). -/
theorem gcm128_aborts_not_implemented (c : Consts)
    (h : (encrypt_tls c.MESSAGE c.KEY_ASCII c.IV_ASCII 1).isOk = true) :
    aes_witnesses .GCM128 c = .panicked "not implemented" ∧
    ∀ w, aes_witnesses .GCM128 c ≠ .ok w := by
  have hmain : aes_witnesses .GCM128 c = .panicked "not implemented" := by
    unfold aes_witnesses
    cases hE : encrypt_tls c.MESSAGE c.KEY_ASCII c.IV_ASCII 1 with
    | ok v => rfl
    | err e => rw [hE] at h; exact absurd h (by simp [Outcome.isOk])
    | panicked s => rw [hE] at h; exact absurd h (by simp [Outcome.isOk])
  exact ⟨hmain, fun w hw => by rw [hmain] at hw; cases hw⟩

/-- Witness for the amended C2 at the concrete modelled constants. -/
theorem gcm128_aborts_not_implemented_check :
    aes_witnesses .GCM128 defaultConsts = .panicked "not implemented" :=
  (gcm128_aborts_not_implemented defaultConsts rfl).1

/-- Claim C3, counterexample: the TLS 1.3 additional data is 5 bytes
(1 content-type byte, 2 version bytes, 2 length bytes, matching
`pub type AAD = [u8; 5]` in `main.rs:30`), not 13 bytes. -/
theorem make_tls13_aad_not_thirteen_bytes :
    aadLen (make_tls13_aad 17) = 5 ∧ aadLen (make_tls13_aad 17) ≠ 13 := by
  constructor
  · decide
  · decide

/-- Claim C3, amended: for every `total_record_length`, `make_tls13_aad`
returns a 5-byte associated-data block consisting of 1 content-type byte
(`0x17`), 2 protocol-version bytes (`0x03 0x03`) and 2 big-endian length
bytes, and it fails with `LengthOverflow` whenever the length exceeds
65535; `encrypt_tls` invokes it at `total_record_length =
message_length + 1 + 16` and aborts on its overflow failure. -/
theorem make_tls13_aad_five_bytes (len : Nat) :
    (len ≤ 65535 →
      make_tls13_aad len = .ok [0x17, 0x03, 0x03, len / 256 % 256, len % 256] ∧
      aadLen (make_tls13_aad len) = 5) ∧
    (65535 < len → make_tls13_aad len = .error .LengthOverflow) ∧
    (∀ message key iv : List Nat, ∀ seq : Nat, 65535 < message.length + 1 + 16 →
      encrypt_tls message key iv seq = .panicked "make_tls13_aad length overflow") := by
  refine ⟨fun hle => ?_, fun hlt => ?_, fun message key iv seq hlt => ?_⟩
  · have hok : make_tls13_aad len = .ok [0x17, 0x03, 0x03, len / 256 % 256, len % 256] := by
      simp [make_tls13_aad, Nat.not_lt.mpr hle]
    exact ⟨hok, by rw [hok]; rfl⟩
  · simp [make_tls13_aad, hlt]
  · have herr : make_tls13_aad (message.length + 1 + 16) = .error .LengthOverflow := by
      simp [make_tls13_aad, hlt]
    simp only [encrypt_tls]
    rw [herr]

/-- Witness for the amended C3 at concrete lengths. -/
theorem make_tls13_aad_five_bytes_check :
    make_tls13_aad 19 = .ok [0x17, 0x03, 0x03, 19 / 256 % 256, 19 % 256] ∧
    make_tls13_aad 70000 = .error .LengthOverflow :=
  ⟨((make_tls13_aad_five_bytes 19).1 (by decide)).1,
   (make_tls13_aad_five_bytes 70000).2.1 (by decide)⟩

/-- Claim C4: for every 12-byte fixed IV and sequence number, `make_nonce`
returns the fixed IV with its last 8 bytes XORed against the big-endian
8-byte encoding of the sequence number (first 4 bytes unchanged), and
XORing the last 8 bytes of the result again with the same encoding recovers
the original fixed IV; indeed `make_nonce` is an involution. -/
theorem make_nonce_xor_spec (iv : List Nat) (seq : Nat) (h : iv.length = 12) :
    make_nonce iv seq = iv.take 4 ++ xorBytes (iv.drop 4) (be64 seq) ∧
    (make_nonce iv seq).take 4 = iv.take 4 ∧
    xorBytes ((make_nonce iv seq).drop 4) (be64 seq) = iv.drop 4 ∧
    make_nonce (make_nonce iv seq) seq = iv := by
  have hbe : (be64 seq).length = 8 := natToBytesBE_length 8 seq
  have htake : (iv.take 4).length = 4 := by rw [List.length_take]; omega
  have hrep : (List.replicate 4 (0 : Nat)).length = 4 := List.length_replicate 4 0
  have hsplit : make_nonce iv seq = iv.take 4 ++ xorBytes (iv.drop 4) (be64 seq) := by
    unfold make_nonce
    calc xorBytes iv (List.replicate 4 0 ++ be64 seq)
        = xorBytes (iv.take 4 ++ iv.drop 4) (List.replicate 4 0 ++ be64 seq) := by
          rw [List.take_append_drop]
      _ = xorBytes (iv.take 4) (List.replicate 4 0) ++ xorBytes (iv.drop 4) (be64 seq) := by
          unfold xorBytes
          exact List.zipWith_append _ _ _ _ _ (by rw [htake, hrep])
      _ = iv.take 4 ++ xorBytes (iv.drop 4) (be64 seq) := by
          rw [xorBytes_replicate_zero, List.take_take, Nat.min_self]
  have hmask : (List.replicate 4 (0 : Nat) ++ be64 seq).length = 12 := by
    rw [List.length_append, hrep, hbe]
  refine ⟨hsplit, ?_, ?_, ?_⟩
  · rw [hsplit, List.take_left' htake]
  · rw [hsplit, List.drop_left' htake, xorBytes_cancel, hbe,
      List.take_of_length_le (by rw [List.length_drop, h])]
  · unfold make_nonce
    rw [xorBytes_cancel, hmask, List.take_of_length_le (le_of_eq h)]

/-- Witness for C4 at a concrete IV and sequence number. -/
theorem make_nonce_xor_spec_check :
    make_nonce (make_nonce (List.replicate 12 0x31) 7) 7 = List.replicate 12 0x31 :=
  (make_nonce_xor_spec (List.replicate 12 0x31) 7 (by decide)).2.2.2

/-- Claim C5, counterexample: in `Ctr256` mode -- a 256-bit mode whose
cipher is keyed with the 32-byte `KEY_BYTES_256` -- the returned `Witness`
carries a 16-byte key that is not `KEY_BYTES_256` (it is the fixed
`KEY_BYTES_156`). -/
theorem witness_key_not_mode_key_at_ctr256 :
    (aes_witnesses .Ctr256 defaultConsts).isOk = true ∧
    (outKey (aes_witnesses .Ctr256 defaultConsts)).length = 16 ∧
    outKey (aes_witnesses .Ctr256 defaultConsts) ≠ defaultConsts.KEY_BYTES_256 := by
  have hk : outKey (aes_witnesses .Ctr256 defaultConsts) = defaultConsts.KEY_BYTES_156 := rfl
  refine ⟨rfl, ?_, ?_⟩
  · rw [hk]; decide
  · rw [hk]; decide

/-- Claim C5, amended: for every `CipherMode`, the `Witness` returned by
`aes_witnesses` carries the fixed 16-byte `KEY_BYTES_156`, regardless of
mode; that key is the one the cipher actually used only for the 128-bit
arms (`Vanilla`, `Ctr128`), while the 256-bit arms encrypt with the
unrecorded `KEY_BYTES_256`. -/
theorem witness_key_always_key156 (c : Consts) (hk : c.KEY_BYTES_156.length = 16) :
    ∀ m w, aes_witnesses m c = .ok w → w.key = c.KEY_BYTES_156 ∧ w.key.length = 16 := by
  intro m w h
  obtain ⟨ct, hM, hw⟩ := aes_witnesses_ok_shape c m w h
  subst hw
  exact ⟨rfl, hk⟩

/-- Witness for the amended C5 at the concrete modelled constants. -/
theorem witness_key_always_key156_check :
    (outWit (aes_witnesses .GCM256 defaultConsts)).key = defaultConsts.KEY_BYTES_156 :=
  (witness_key_always_key156 defaultConsts (by decide) .GCM256
    (outWit (aes_witnesses .GCM256 defaultConsts)) rfl).1

/-- Claim C6: for every `Witness` produced by `aes_witnesses`,
`len(ct) >= len(pt)` holds when the mode is an AEAD mode (`GcmSiv`,
`GCM256`, `GCM128` -- the last vacuously, as it never produces a witness),
and `len(ct) == len(pt)` holds when the mode is `Ctr128`, `Ctr256` or
`Vanilla`; the hypotheses are the modelled 16-byte lengths of the two
plaintext constants. -/
theorem witness_ct_length_invariant (c : Consts)
    (hm : c.MESSAGE_BYTES.length = 16) (hz : c.ZERO_MESSAGE_BYTES_256.length = 16) :
    ∀ m w, aes_witnesses m c = .ok w →
      (isAead m = true → w.pt.length ≤ w.ct.length) ∧
      (isAead m = false → w.ct.length = w.pt.length) := by
  intro m w h
  obtain ⟨ct, hM, hw⟩ := aes_witnesses_ok_shape c m w h
  subst hw
  cases m with
  | Vanilla =>
    cases hM
    refine ⟨fun hA => absurd hA (by decide), fun _ => ?_⟩
    show (vanillaCt c).length = c.ZERO_MESSAGE_BYTES_256.length
    rw [vanillaCt, aes128EncryptBlock_length, hz]
  | Ctr128 =>
    cases hM
    refine ⟨fun hA => absurd hA (by decide), fun _ => ?_⟩
    show (ctr128Ct c).length = c.ZERO_MESSAGE_BYTES_256.length
    have e1 : ctr128Ct c = (apply_keystream (aes128EncryptBlock c.KEY_BYTES_156)
      c.IV_BYTES 1 c.MESSAGE_BYTES).snd := rfl
    rw [e1, apply_keystream_snd_length, hm, hz]
  | Ctr256 =>
    cases hM
    refine ⟨fun hA => absurd hA (by decide), fun _ => ?_⟩
    show (ctr256Ct c).length = c.ZERO_MESSAGE_BYTES_256.length
    have e1 : ctr256Ct c = (apply_keystream (aes256EncryptBlock c.KEY_BYTES_256)
      c.IV_BYTES_256 1 c.ZERO_MESSAGE_BYTES_256).snd := rfl
    rw [e1, apply_keystream_snd_length]
  | GcmSiv =>
    cases hM
    refine ⟨fun _ => ?_, fun hA => absurd hA (by decide)⟩
    show c.ZERO_MESSAGE_BYTES_256.length ≤ (gcmSivCt c).length
    rw [gcmSivCt, aes256gcmsiv_encrypt_length]
    omega
  | GCM256 =>
    cases hM
    refine ⟨fun _ => ?_, fun hA => absurd hA (by decide)⟩
    show c.ZERO_MESSAGE_BYTES_256.length ≤ (gcm256Ct c).length
    rw [gcm256Ct, aes256gcm_encrypt, gcm_encrypt_length]
    omega
  | GCM128 => cases hM

/-- Witness for C6 at the concrete modelled constants, `GcmSiv` mode. -/
theorem witness_ct_length_invariant_check :
    (outWit (aes_witnesses .GcmSiv defaultConsts)).pt.length ≤
      (outWit (aes_witnesses .GcmSiv defaultConsts)).ct.length :=
  (witness_ct_length_invariant defaultConsts (by decide) (by decide) .GcmSiv
    (outWit (aes_witnesses .GcmSiv defaultConsts)) rfl).1 (by decide)

/-- Claim C7, counterexample: the test message
`"testhello0000000testhello0000000"` of `test_aes_gcm_blocks` is 32 bytes,
not 33, and the GCM-128 ciphertext it produces is 48 bytes, not 49. -/
theorem test_gcm_blocks_not_33_bytes :
    testMessage.length = 32 ∧ testGcmBlocksCt.length = 48 ∧ testGcmBlocksCt.length ≠ 49 := by
  have h32 : testMessage.length = 32 := by decide
  have hlen : testGcmBlocksCt.length = 48 := by
    rw [testGcmBlocksCt, aes128gcm_encrypt, gcm_encrypt_length, h32]
  exact ⟨h32, hlen, by omega⟩

/-- Claim C7, amended: with key and nonce all `0x31` and the 32-byte test
message, the GCM-128 ciphertext has length 32 + 16 = 48 bytes, and its
leading 32 bytes equal the CTR-mode encryption of the same plaintext under
the same key and the canonical counter extension of the same nonce, with the
one-block keystream discard applied first. -/
theorem test_gcm_blocks_ct_structure :
    testGcmBlocksCt.length = 32 + 16 ∧
    testGcmBlocksCt.take 32 =
      (apply_keystream (aes128EncryptBlock testKey31) (testIv31 ++ [0, 0, 0, 1])
        (apply_keystream (aes128EncryptBlock testKey31) (testIv31 ++ [0, 0, 0, 1]) 0
          (List.replicate 16 0)).fst testMessage).snd := by
  have h32 : testMessage.length = 32 := by decide
  constructor
  · rw [testGcmBlocksCt, aes128gcm_encrypt, gcm_encrypt_length, h32]
  · have hfst : (apply_keystream (aes128EncryptBlock testKey31) (testIv31 ++ [0, 0, 0, 1]) 0
      (List.replicate 16 0)).fst = 1 := rfl
    rw [hfst, ← h32, testGcmBlocksCt, aes128gcm_encrypt]
    exact gcm_encrypt_take (aes128EncryptBlock testKey31) testIv31 [] testMessage

/-- Claim C8: the computation is deterministic in its inputs -- two
invocations of `aes_witnesses` with the same mode and constants (hence the
same key, IV/nonce, plaintext and AAD for every arm) produce bit-identical
ciphertext bytes, and indeed identical witnesses. -/
theorem encryption_deterministic :
    ∀ (m : CipherMode) (c : Consts) (w1 w2 : Witness),
      aes_witnesses m c = .ok w1 → aes_witnesses m c = .ok w2 →
      w1.ct = w2.ct ∧ w1 = w2 := by
  intro m c w1 w2 h1 h2
  rw [h1] at h2
  cases h2
  exact ⟨rfl, rfl⟩

/-- Witness for C8 at the concrete modelled constants, `Vanilla` mode. -/
theorem encryption_deterministic_check :
    (outWit (aes_witnesses .Vanilla defaultConsts)).ct =
      (outWit (aes_witnesses .Vanilla defaultConsts)).ct :=
  (encryption_deterministic .Vanilla defaultConsts
    (outWit (aes_witnesses .Vanilla defaultConsts))
    (outWit (aes_witnesses .Vanilla defaultConsts)) rfl rfl).1

/-- Claim C9: `encrypt_tls` is independent of the sequence number for all
inputs (the computed nonce and AAD are both discarded), and on well-formed
inputs it returns exactly the AES-128-GCM encryption with the *raw* IV as
the nonce and an *empty* AAD. -/
theorem encrypt_tls_ignores_seq_and_aad :
    (∀ (message key iv : List Nat) (s1 s2 : Nat),
      encrypt_tls message key iv s1 = encrypt_tls message key iv s2) ∧
    (∀ (message key iv : List Nat) (seq : Nat), key.length = 16 → iv.length = 12 →
      message.length + 17 ≤ 65535 →
      encrypt_tls message key iv seq = .ok (aes128gcm_encrypt key iv [] message)) := by
  constructor
  · intro message key iv s1 s2
    rfl
  · intro message key iv seq hk hiv hlen
    have haad : make_tls13_aad (message.length + 1 + 16) =
        .ok [0x17, 0x03, 0x03, (message.length + 1 + 16) / 256 % 256,
          (message.length + 1 + 16) % 256] := by
      simp [make_tls13_aad]
      omega
    simp only [encrypt_tls]
    rw [haad]
    simp only
    rw [if_neg (by omega), if_neg (by simp [hk]), if_neg (by simp [hiv])]

/-- Witness for C9 at concrete inputs. -/
theorem encrypt_tls_ignores_seq_and_aad_check :
    encrypt_tls [1, 2] (List.replicate 16 9) (List.replicate 12 8) 5 =
      .ok (aes128gcm_encrypt (List.replicate 16 9) (List.replicate 12 8) [] [1, 2]) :=
  encrypt_tls_ignores_seq_and_aad.2 [1, 2] (List.replicate 16 9) (List.replicate 12 8) 5
    (by decide) (by decide) (by decide)

/-- Claim C10: for every `CipherMode` for which `aes_witnesses` returns a
`Witness`, the `key`, `iv` and `pt` fields are the fixed constants
`KEY_BYTES_156`, `IV_BYTES_SHORT_256` and `ZERO_MESSAGE_BYTES_256`,
independent of the mode -- only `ct` varies; in particular, at the modelled
constants the recorded `pt` is not the plaintext (`MESSAGE_BYTES`) that the
`Vanilla` arm actually encrypted. -/
theorem witness_fields_fixed_constants :
    (∀ (c : Consts) (m : CipherMode) (w : Witness), aes_witnesses m c = .ok w →
      w.key = c.KEY_BYTES_156 ∧ w.iv = c.IV_BYTES_SHORT_256 ∧
      w.pt = c.ZERO_MESSAGE_BYTES_256) ∧
    vanillaCt defaultConsts =
      aes128EncryptBlock defaultConsts.KEY_BYTES_156 defaultConsts.MESSAGE_BYTES ∧
    (aes_witnesses .Vanilla defaultConsts).isOk = true ∧
    outPt (aes_witnesses .Vanilla defaultConsts) ≠ defaultConsts.MESSAGE_BYTES := by
  have hpt : outPt (aes_witnesses .Vanilla defaultConsts) =
    defaultConsts.ZERO_MESSAGE_BYTES_256 := rfl
  refine ⟨?_, rfl, rfl, by rw [hpt]; decide⟩
  intro c m w h
  obtain ⟨ct, hM, hw⟩ := aes_witnesses_ok_shape c m w h
  subst hw
  exact ⟨rfl, rfl, rfl⟩

/-- Witness for C10 at the concrete modelled constants, `Ctr128` mode. -/
theorem witness_fields_fixed_constants_check :
    (outWit (aes_witnesses .Ctr128 defaultConsts)).pt =
      defaultConsts.ZERO_MESSAGE_BYTES_256 :=
  (witness_fields_fixed_constants.1 defaultConsts .Ctr128
    (outWit (aes_witnesses .Ctr128 defaultConsts)) rfl).2.2

end AesCircuits
